import Mathlib

/-!
Verification of the bibliographic-record parsing and text-normalization
pipeline of the dVRK community-publications front-end.

The JavaScript sources are embedded shallowly: strings are `String`/`List Char`,
the regular-expression scans of the source are modelled as explicit left-to-right
scanners with the same matching and backtracking behaviour, and the third-party
bibtex parser (`bibtexParse.toJSON`, not part of this repository's sources) is
modelled from the specification's §4.1 balanced-delimiter grammar.
-/

/-! ### Character constants

Delimiter characters used throughout the source's regular expressions. -/

def bs : Char := '\\'

def lbr : Char := Char.ofNat 123

def rbr : Char := Char.ofNat 125

def apos : Char := Char.ofNat 39

def btick : Char := Char.ofNat 96

def quot : Char := Char.ofNat 34

/-- The accent class `[\x27\x60^\x22~]` of the decoder's first two regexes. -/
def isAccent (c : Char) : Bool :=
  c == apos || c == btick || c == '^' || c == quot || c == '~'

/-! ### `CONFIG.convertLatexToUnicode` (src/unnamed/part_000, lines 27-101)

The `latexMap` object literal, keyed by the exact JavaScript string keys.
Note that the umlaut keys carry a leading backslash (the source writes
`'\\"a'` inside single quotes, a three-character key), exactly as in
part_000. -/

def latexMap : List (List Char × Char) :=
  [ ([apos, 'a'], 'á'), ([apos, 'e'], 'é'), ([apos, 'i'], 'í'), ([apos, 'o'], 'ó'),
    ([apos, 'u'], 'ú'),
    ([apos, 'A'], 'Á'), ([apos, 'E'], 'É'), ([apos, 'I'], 'Í'), ([apos, 'O'], 'Ó'),
    ([apos, 'U'], 'Ú'),
    ([apos, 'y'], 'ý'), ([apos, 'Y'], 'Ý'), ([apos, 'c'], 'ć'), ([apos, 'C'], 'Ć'),
    ([apos, 'n'], 'ń'), ([apos, 'N'], 'Ń'), ([apos, 's'], 'ś'), ([apos, 'S'], 'Ś'),
    ([apos, 'z'], 'ź'), ([apos, 'Z'], 'Ź'),
    ([btick, 'a'], 'à'), ([btick, 'e'], 'è'), ([btick, 'i'], 'ì'), ([btick, 'o'], 'ò'),
    ([btick, 'u'], 'ù'),
    ([btick, 'A'], 'À'), ([btick, 'E'], 'È'), ([btick, 'I'], 'Ì'), ([btick, 'O'], 'Ò'),
    ([btick, 'U'], 'Ù'),
    (['^', 'a'], 'â'), (['^', 'e'], 'ê'), (['^', 'i'], 'î'), (['^', 'o'], 'ô'),
    (['^', 'u'], 'û'),
    (['^', 'A'], 'Â'), (['^', 'E'], 'Ê'), (['^', 'I'], 'Î'), (['^', 'O'], 'Ô'),
    (['^', 'U'], 'Û'),
    ([bs, quot, 'a'], 'ä'), ([bs, quot, 'e'], 'ë'), ([bs, quot, 'i'], 'ï'),
    ([bs, quot, 'o'], 'ö'), ([bs, quot, 'u'], 'ü'),
    ([bs, quot, 'A'], 'Ä'), ([bs, quot, 'E'], 'Ë'), ([bs, quot, 'I'], 'Ï'),
    ([bs, quot, 'O'], 'Ö'), ([bs, quot, 'U'], 'Ü'),
    ([bs, quot, 'y'], 'ÿ'), ([bs, quot, 'Y'], 'Ÿ'),
    (['~', 'a'], 'ã'), (['~', 'n'], 'ñ'), (['~', 'o'], 'õ'),
    (['~', 'A'], 'Ã'), (['~', 'N'], 'Ñ'), (['~', 'O'], 'Õ'),
    (['c', lbr, 'c', rbr], 'ç'), (['c', lbr, 'C', rbr], 'Ç'),
    (['c', ' ', 'c'], 'ç'), (['c', ' ', 'C'], 'Ç'),
    (['a', 'a'], 'å'), (['A', 'A'], 'Å'),
    (['o'], 'ø'), (['O'], 'Ø'),
    (['a', 'e'], 'æ'), (['A', 'E'], 'Æ'),
    (['o', 'e'], 'œ'), (['O', 'E'], 'Œ'),
    (['s', 's'], 'ß'),
    (['l'], 'ł'), (['L'], 'Ł') ]

/-- `latexMap[key] || match`: emit the mapped character if the key is present,
otherwise the matched text itself, unchanged. -/
def emitKey (key matched : List Char) : List Char :=
  match List.lookup key latexMap with
  | some u => [u]
  | none => matched

/-- First replace pass, the regex `\x7b\\(['\x60^"~])(\x7b([a-zA-Z])\x7d|([a-zA-Z]))\x7d`:
a brace-wrapped escape.  Returns the emitted output and the remainder after the
match, or `none` when no match starts at the head. -/
def match1 (l : List Char) : Option (List Char × List Char) :=
  match l with
  | a :: rest =>
    if a = lbr then
      match rest with
      | b :: c :: rest2 =>
        if b = bs ∧ isAccent c then
          match rest2 with
          | d :: e :: f :: g :: rest3 =>
            if d = lbr ∧ e.isAlpha ∧ f = rbr ∧ g = rbr then
              some (emitKey [c, e] [a, b, c, d, e, f, g], rest3)
            else if d.isAlpha ∧ e = rbr then
              some (emitKey [c, d] [a, b, c, d, e], f :: g :: rest3)
            else none
          | d :: e :: rest3 =>
            if d.isAlpha ∧ e = rbr then
              some (emitKey [c, d] [a, b, c, d, e], rest3)
            else none
          | _ => none
        else none
      | _ => none
    else none
  | [] => none

/-- After `\accent` of the second pass: the optional-brace suffix
`\x7b?([a-zA-Z])\x7d?`, greedy on both optional delimiters. -/
def match2core : List Char → Option (List Char × Char × List Char)
  | c₁ :: c₂ :: c₃ :: r =>
    if c₁ = lbr then
      if c₂.isAlpha then
        if c₃ = rbr then some ([c₁, c₂, c₃], c₂, r)
        else some ([c₁, c₂], c₂, c₃ :: r)
      else none
    else if c₁.isAlpha then
      if c₂ = rbr then some ([c₁, c₂], c₁, c₃ :: r)
      else some ([c₁], c₁, c₂ :: c₃ :: r)
    else none
  | [c₁, c₂] =>
    if c₁ = lbr then
      if c₂.isAlpha then some ([c₁, c₂], c₂, []) else none
    else if c₁.isAlpha then
      if c₂ = rbr then some ([c₁, c₂], c₁, []) else some ([c₁], c₁, [c₂])
    else none
  | [c₁] => if c₁.isAlpha then some ([c₁], c₁, []) else none
  | [] => none

/-- Second replace pass, the regex `\\(['\x60^"~])\x7b?([a-zA-Z])\x7d?`. -/
def match2 (l : List Char) : Option (List Char × List Char) :=
  match l with
  | a :: rest =>
    if a = bs then
      match rest with
      | b :: rest2 =>
        if isAccent b then
          match match2core rest2 with
          | some (con, letter, rem) => some (emitKey [b, letter] (a :: b :: con), rem)
          | none => none
        else none
      | [] => none
    else none
  | [] => none

/-- The command alternatives `(c|aa|AA|o|O|ae|AE|oe|OE|ss|l|L)` of the third
pass, in the regex's left-to-right order. -/
def cmds : List (List Char) :=
  [['c'], ['a', 'a'], ['A', 'A'], ['o'], ['O'], ['a', 'e'], ['A', 'E'],
   ['o', 'e'], ['O', 'E'], ['s', 's'], ['l'], ['L']]

/-- Literal-prefix consumption for one command alternative. -/
def dropCmd : List Char → List Char → Option (List Char)
  | [], l => some l
  | _, [] => none
  | p :: ps, c :: cs => if c = p then dropCmd ps cs else none

/-- The suffix group `(\x7b([a-zA-Z])\x7d|\s([a-zA-Z])|(?![a-zA-Z]))` of the third
pass: brace-wrapped letter, whitespace-separated letter, or a negative lookahead
for a letter (consuming nothing).  Returns the optional argument letter and the
number of consumed characters. -/
def suffix3 : List Char → Option (Option Char × Nat)
  | c₁ :: c₂ :: c₃ :: _ =>
    if c₁ = lbr ∧ c₂.isAlpha ∧ c₃ = rbr then some (some c₂, 3)
    else if c₁.isWhitespace ∧ c₂.isAlpha then some (some c₂, 2)
    else if ¬ c₁.isAlpha then some (none, 0)
    else none
  | [c₁, c₂] =>
    if c₁.isWhitespace ∧ c₂.isAlpha then some (some c₂, 2)
    else if ¬ c₁.isAlpha then some (none, 0)
    else none
  | [c₁] => if ¬ c₁.isAlpha then some (none, 0) else none
  | [] => some (none, 0)

/-- Try the command alternatives in order; a command commits only when its
suffix group also matches (the regex engine's backtracking over the
alternation). -/
def tryCmds : List (List Char) → List Char → Option (List Char × Option Char × List Char × List Char)
  | [], _ => none
  | cmd :: more, l =>
    match dropCmd cmd l with
    | some r =>
      match suffix3 r with
      | some (letter, n) => some (cmd, letter, r.take n, r.drop n)
      | none => tryCmds more l
    | none => tryCmds more l

/-- Third replace pass, the special-command regex
`\\(c|aa|AA|o|O|ae|AE|oe|OE|ss|l|L)(...)`: with an argument letter the source
tries `latexMap[cmd+'\x7b'+letter+'\x7d'] || latexMap[cmd+' '+letter] || match`;
without one it tries `latexMap[cmd] || match`. -/
def match3 (l : List Char) : Option (List Char × List Char) :=
  match l with
  | a :: rest =>
    if a = bs then
      match tryCmds cmds rest with
      | some (cmd, some letter, con, rem) =>
        match List.lookup (cmd ++ [lbr, letter, rbr]) latexMap with
        | some u => some ([u], rem)
        | none =>
          match List.lookup (cmd ++ [' ', letter]) latexMap with
          | some u => some ([u], rem)
          | none => some (a :: (cmd ++ con), rem)
      | some (cmd, none, con, rem) =>
        match List.lookup cmd latexMap with
        | some u => some ([u], rem)
        | none => some (a :: (cmd ++ con), rem)
      | none => none
    else none
  | [] => none

/-- Fourth replace pass, the regex `\x7b([^\\\x7d]+)\x7d` replaced by `$1`:
strip one pair of grouping braces around a nonempty run free of backslashes and
closing braces. -/
def match4 (l : List Char) : Option (List Char × List Char) :=
  match l with
  | a :: rest =>
    if a = lbr then
      match rest.dropWhile (fun c => !(c == bs || c == rbr)) with
      | b :: rest2 =>
        if b = rbr ∧ rest.takeWhile (fun c => !(c == bs || c == rbr)) ≠ [] then
          some (rest.takeWhile (fun c => !(c == bs || c == rbr)), rest2)
        else none
      | [] => none
    else none
  | [] => none

/-- One global-replace scan, as JavaScript `String.replace(/re/g, f)` performs
it: find the leftmost match, emit its replacement, continue scanning the
original string after the match (replacements are never rescanned).  All four
matchers consume at least one character on success, so fuel equal to the input
length suffices. -/
def scanWith (f : List Char → Option (List Char × List Char)) : Nat → List Char → List Char
  | _, [] => []
  | 0, l => l
  | fuel + 1, c :: rest =>
    match f (c :: rest) with
    | some (out, rem) => out ++ scanWith f fuel rem
    | none => c :: scanWith f fuel rest

/-- Run one replace pass over a whole string's characters. -/
def runPass (f : List Char → Option (List Char × List Char)) (l : List Char) : List Char :=
  scanWith f l.length l

/-- `CONFIG.convertLatexToUnicode` (src/unnamed/part_000, lines 27-101): the
four sequential global replaces, after the `if (!text) return ''` guard. -/
def convertLatexToUnicode (text : String) : String :=
  if text = "" then ""
  else String.mk (runPass match4 (runPass match3 (runPass match2 (runPass match1 text.data))))

/-! ### JavaScript string primitives

Structural models of the string operations the source relies on:
`String.prototype.trim`, `toLowerCase`, `split` with a string separator, and
`Array.prototype.join`. -/

/-- `trim()`: drop whitespace from both ends. -/
def jsTrim (s : String) : String :=
  String.mk (((s.data.dropWhile Char.isWhitespace).reverse.dropWhile Char.isWhitespace).reverse)

/-- `toLowerCase()` on the ASCII field names of the document. -/
def jsToLower (s : String) : String :=
  String.mk (s.data.map Char.toLower)

/-- `split(sep)` for a nonempty string separator: break at each leftmost
non-overlapping occurrence.  Fuel equal to the input length suffices since a
step always consumes at least one character. -/
def splitSepF (sep : List Char) : Nat → List Char → List Char → List (List Char)
  | 0, acc, rest => [acc.reverse ++ rest]
  | _, acc, [] => [acc.reverse]
  | fuel + 1, acc, c :: rest =>
    match dropCmd sep (c :: rest) with
    | some rem => acc.reverse :: splitSepF sep fuel [] rem
    | none => splitSepF sep fuel (c :: acc) rest

def jsSplit (sep s : String) : List String :=
  (splitSepF sep.data s.data.length [] s.data).map String.mk

/-- `array.join(sep)`. -/
def jsJoin (sep : String) : List String → String
  | [] => ""
  | [x] => x
  | x :: y :: xs => x ++ sep ++ jsJoin sep (y :: xs)

/-! ### Category-code lists (src/app.js, lines 255-280)

`parseFields`, `parseDataTypes` and `parseSites` share the same splitter stage:
guard against a falsy input, `split(' and ')`, trim each token, and keep only
the truthy (nonempty) tokens; only the final resolution against a lookup table
differs. -/

def splitCodes (s : String) : List String :=
  if s = "" then []
  else ((jsSplit " and " s).map jsTrim).filter (fun t => !(t == ""))

/-- `CONFIG.FIELD_MAP` (src/unnamed/part_000, lines 7-14), as the lookup
`CONFIG.FIELD_MAP[code]`. -/
def FIELD_MAP (c : String) : Option String :=
  if c = "AU" then some "Automation"
  else if c = "TR" then some "Training, skill assessment and gesture recognition"
  else if c = "HW" then some "Hardware implementation and integration"
  else if c = "SS" then some "System simulation and modelling"
  else if c = "IM" then some "Imaging and vision"
  else if c = "RE" then some "Reviews"
  else none

/-- `CONFIG.DATA_TYPE_MAP` (src/unnamed/part_000, lines 18-24). -/
def DATA_TYPE_MAP (c : String) : Option String :=
  if c = "RI" then some "Raw Images"
  else if c = "KD" then some "Kinematic Data"
  else if c = "DD" then some "Dynamic Data"
  else if c = "SD" then some "System Data"
  else if c = "ED" then some "External Data"
  else none

/-- `parseFields` (src/app.js, lines 255-262): `FIELD_MAP[code] || code`. -/
def parseFields (fields : String) : List String :=
  (splitCodes fields).map (fun code => (FIELD_MAP code).getD code)

/-- `parseDataTypes` (src/app.js, lines 263-270). -/
def parseDataTypes (dataTypes : String) : List String :=
  (splitCodes dataTypes).map (fun code => (DATA_TYPE_MAP code).getD code)

/-- The `\x7bacronym, name\x7d` objects produced by `parseSites`. -/
structure Site where
  acronym : String
  name : String
deriving DecidableEq

/-- `parseSites` (src/app.js, lines 271-280): `CONFIG.SITE_MAP` is loaded by
`CONFIG.init()` from configuration that is not among the sources, so the site
table is a parameter; `SITE_MAP[acronym] || acronym`. -/
def parseSites (siteMap : String → Option String) (sites : String) : List Site :=
  (splitCodes sites).map (fun acronym => ⟨acronym, (siteMap acronym).getD acronym⟩)

/-! ### `extractBibtexEntries` (src/app.js, lines 203-214)

The source scans the document with the global regex
`@(\w+)\x7b([^,]+),[\s\S]*?\n\x7d` and stores `match[0]` under the citation key
`match[2]`.  At a given start position the match is fully determined: `@`, a
maximal nonempty run of word characters that must be followed by `\x7b`, a
maximal nonempty run of non-comma characters that must be followed by `,`, and
then the lazy `[\s\S]*?\n\x7d` extends exactly to the first later occurrence of
a newline immediately followed by `\x7d`. -/

def isWordChar (c : Char) : Bool := c.isAlphanum || c == '_'

/-- Consume up to and including the first newline-then-`\x7d` pair; `none` if
there is none (the lazy tail of the regex can never complete). -/
def findNlBrace : List Char → Option (List Char × List Char)
  | [] => none
  | [_] => none
  | c :: d :: rest =>
    if c = '\n' ∧ d = rbr then some ([c, d], rest)
    else
      match findNlBrace (d :: rest) with
      | some (p, r) => some (c :: p, r)
      | none => none

/-- Attempt the entry regex at the head of the list; on success return the full
match text, the citation key, and the remainder after the match. -/
def matchEntryAt (l : List Char) : Option (List Char × List Char × List Char) :=
  match l with
  | c :: rest =>
    if c = '@' ∧ rest.takeWhile isWordChar ≠ [] then
      match rest.dropWhile isWordChar with
      | b :: r2 =>
        if b = lbr ∧ r2.takeWhile (fun x => !(x == ',')) ≠ [] then
          match r2.dropWhile (fun x => !(x == ',')) with
          | comma :: r4 =>
            match findNlBrace r4 with
            | some (mid, rem) =>
              some (c :: rest.takeWhile isWordChar ++ b ::
                      r2.takeWhile (fun x => !(x == ',')) ++ comma :: mid,
                    r2.takeWhile (fun x => !(x == ',')), rem)
            | none => none
          | [] => none
        else none
      | [] => none
    else none
  | [] => none

/-- The `while ((match = regex.exec(bibtexText)) !== null)` loop: leftmost
match, then continue after it.  Every successful match consumes at least one
character, so fuel equal to the input length suffices. -/
def extractLoopF : Nat → List Char → List (List Char × List Char)
  | 0, _ => []
  | _, [] => []
  | fuel + 1, c :: rest =>
    match matchEntryAt (c :: rest) with
    | some (m, k, rem) => (k, m) :: extractLoopF fuel rem
    | none => extractLoopF fuel rest

/-- All regex matches of the document, as (citation key, match text) pairs in
match order. -/
def extractBibtexList (text : String) : List (String × String) :=
  (extractLoopF text.data.length text.data).map (fun p => (String.mk p.1, String.mk p.2))

/-- A JavaScript object assignment in a loop keeps the last value written under
a key. -/
def lookupLast (l : List (String × String)) (k : String) : Option String :=
  ((l.filter (fun p => p.1 == k)).getLast?).map (fun p => p.2)

/-- `extractBibtexEntries` as a map: `entries[citationKey]` after the loop. -/
def extractBibtexEntries (text : String) (k : String) : Option String :=
  lookupLast (extractBibtexList text) k

/-! ### The record parser

Modelled from the spec: `loadPublications` delegates the structural parse to
the third-party `bibtexParse.toJSON`, which is not among this repository's
sources; the definitions below follow the specification's §4.1 grammar — scan
for `@type\x7bkey,`, track the nesting depth of grouping braces until it
returns to zero, split the span on top-level commas into `name = value`
segments, lowercase field names, strip one enclosing layer of braces or quotes
from values, and silently drop entries lacking a citation key or entry type;
an entry whose braces never balance before document end aborts the parse with
`MalformedEntryError` (§7). -/

/-- Modelled from the spec: §7's `MalformedEntryError`, identifying the offset
of the unterminated entry. -/
structure MalformedEntryError where
  offset : Nat
deriving DecidableEq

/-- One parsed bibliographic entry (§3 `BibliographicEntry`): type tag,
citation key, raw field mapping in document order, and the exact source span. -/
structure RawEntry where
  entryType : String
  citationKey : String
  fields : List (String × String)
  verbatimText : String
deriving DecidableEq

/-- Scan an entry body tracking brace depth (starting inside one open brace);
return the content before the balancing close and the remainder after it, or
`none` when the braces never balance. -/
def scanBody : Nat → List Char → Option (List Char × List Char)
  | _, [] => none
  | d, c :: rest =>
    if c = lbr then
      match scanBody (d + 1) rest with
      | some (p, r) => some (c :: p, r)
      | none => none
    else if c = rbr then
      if d = 1 then some ([], rest)
      else
        match scanBody (d - 1) rest with
        | some (p, r) => some (c :: p, r)
        | none => none
    else
      match scanBody d rest with
      | some (p, r) => some (c :: p, r)
      | none => none

/-- Split an entry body at top-level commas (a comma inside a nested brace
group does not split). -/
def splitTLAux : Nat → List Char → List Char → List (List Char)
  | _, acc, [] => [acc.reverse]
  | d, acc, c :: rest =>
    if c = ',' ∧ d = 0 then acc.reverse :: splitTLAux 0 [] rest
    else if c = lbr then splitTLAux (d + 1) (c :: acc) rest
    else if c = rbr then splitTLAux (d - 1) (c :: acc) rest
    else splitTLAux d (c :: acc) rest

def splitTopLevel (l : List Char) : List (List Char) := splitTLAux 0 [] l

/-- Strip one enclosing layer of grouping braces or quotes, if present,
preserving inner delimiters verbatim (§4.1 step 4). -/
def stripOneLayer (s : String) : String :=
  match s.data with
  | [] => s
  | c :: cs =>
    if c = lbr ∧ cs.getLast? = some rbr then String.mk cs.dropLast
    else if c = quot ∧ cs.getLast? = some quot then String.mk cs.dropLast
    else s

/-- Parse one `name = value` segment: trimmed lowercased name, trimmed value
with one enclosing delimiter layer stripped; segments with no `=` (such as the
run after a trailing comma) yield no field. -/
def parseFieldSeg (seg : List Char) : Option (String × String) :=
  match seg.dropWhile (fun c => !(c == '=')) with
  | [] => none
  | _ :: valChars =>
    if jsToLower (jsTrim (String.mk (seg.takeWhile (fun c => !(c == '='))))) = "" then none
    else some (jsToLower (jsTrim (String.mk (seg.takeWhile (fun c => !(c == '='))))),
               stripOneLayer (jsTrim (String.mk valChars)))

/-- Assemble an entry from its type tag, body content and verbatim span;
entries lacking a recognizable citation key or entry type are dropped (§4.1
step 6): the key is the first top-level segment, which must be nonempty after
trimming and must not be a `name = value` assignment. -/
def mkEntry (ty content verb : List Char) : Option RawEntry :=
  match splitTopLevel content with
  | [] => none
  | keySeg :: fieldSegs =>
    if ty ≠ [] ∧ jsTrim (String.mk keySeg) ≠ "" ∧
        ¬ (jsTrim (String.mk keySeg)).data.contains '=' then
      some ⟨String.mk ty, jsTrim (String.mk keySeg), fieldSegs.filterMap parseFieldSeg,
            String.mk verb⟩
    else none

/-- The verbatim span of an entry: `@`, the type tag, the opening brace, the
body content, and the balancing close, inclusive (§4.1 step 2). -/
def mkVerb (ty content : List Char) : List Char :=
  '@' :: ty ++ lbr :: content ++ [rbr]

/-- Modelled from the spec: the §4.1 parse loop.  `pos` is the byte offset of
the current head.  Each step consumes at least one character, so fuel equal to
the document length suffices. -/
def parseLoop : Nat → Nat → List Char → Except MalformedEntryError (List RawEntry)
  | 0, _, _ => .ok []
  | _, _, [] => .ok []
  | fuel + 1, pos, c :: rest =>
    if c = '@' then
      match rest.dropWhile isWordChar with
      | b :: r2 =>
        if b = lbr then
          match scanBody 1 r2 with
          | none => .error ⟨pos⟩
          | some (content, rem) =>
            match mkEntry (rest.takeWhile isWordChar) content
                    (mkVerb (rest.takeWhile isWordChar) content) with
            | some e =>
              match parseLoop fuel (pos + 3 + (rest.takeWhile isWordChar).length + content.length)
                      rem with
              | .ok es => .ok (e :: es)
              | .error err => .error err
            | none =>
              parseLoop fuel (pos + 3 + (rest.takeWhile isWordChar).length + content.length) rem
        else parseLoop fuel (pos + 1 + (rest.takeWhile isWordChar).length)
               (rest.dropWhile isWordChar)
      | [] => .ok []
    else parseLoop fuel (pos + 1) rest

/-- Modelled from the spec: the Record Parser contract (§4.1) — the ordered
sequence of entries in document order, or a `MalformedEntryError`. -/
def parseBibtex (text : String) : Except MalformedEntryError (List RawEntry) :=
  parseLoop text.data.length 0 text.data

/-- Field lookup on an entry; a field appearing twice keeps its last
occurrence (§4.1 edge cases: standard mapping overwrite semantics). -/
def getField (e : RawEntry) (name : String) : Option String :=
  ((e.fields.filter (fun p => p.1 == name)).getLast?).map (fun p => p.2)

/-! ### `loadPublications` (src/app.js, lines 148-202) -/

/-- One record of the `publications` array, as built by the `map` in
`loadPublications`. -/
structure Publication where
  id : String
  type : String
  title : String
  author : String
  year : String
  journal : String
  booktitle : String
  volume : String
  number : String
  pages : String
  publisher : String
  doi : String
  url : String
  ieeexplore : String
  semanticscholar : String
  arxiv : String
  abstract : String
  openaccesspdf : String
  research_field : String
  data_type : String
  dvrk_site : String
  bibtexText : String
  showBibtex : Bool
  showAbstract : Bool
deriving DecidableEq

/-- `value.replace(/[\x7b\x7d]/g, '')`: delete every brace. -/
def stripBraces (s : String) : String :=
  String.mk (s.data.filter (fun c => !(c == lbr || c == rbr)))

/-- JavaScript `parseInt`: skip leading whitespace, optional sign, maximal
digit run; `none` models `NaN`. -/
def parseIntJS (s : String) : Option Int :=
  match s.data.dropWhile Char.isWhitespace with
  | '-' :: r =>
    if r.takeWhile Char.isDigit = [] then none
    else some (-(((r.takeWhile Char.isDigit).foldl (fun a c => a * 10 + (c.toNat - 48)) 0 : Nat) : Int))
  | '+' :: r =>
    if r.takeWhile Char.isDigit = [] then none
    else some (((r.takeWhile Char.isDigit).foldl (fun a c => a * 10 + (c.toNat - 48)) 0 : Nat) : Int)
  | l =>
    if l.takeWhile Char.isDigit = [] then none
    else some (((l.takeWhile Char.isDigit).foldl (fun a c => a * 10 + (c.toNat - 48)) 0 : Nat) : Int)

/-- `parseInt(p.year)` as a sort key (non-numeric years do not occur in the
sorted data the claims exercise). -/
def yearKey (p : Publication) : Int := (parseIntJS p.year).getD 0

/-- The order imposed by the comparator
`(a, b) => parseInt(b.year) - parseInt(a.year)`: `a` may precede `b` exactly
when the comparator is nonpositive, i.e. year descending. -/
def pubLE (a b : Publication) : Prop := yearKey b ≤ yearKey a

instance : DecidableRel pubLE :=
  fun a b => inferInstanceAs (Decidable (yearKey b ≤ yearKey a))

instance : IsTotal Publication pubLE :=
  ⟨fun a b => Int.le_total (yearKey b) (yearKey a)⟩

instance : IsTrans Publication pubLE :=
  ⟨fun _ _ _ hab hbc => le_trans hbc hab⟩

/-- The record constructed for one parsed entry (src/app.js, lines 163-190);
`bib` is the verbatim-entry map built by `extractBibtexEntries`. -/
def toPublication (bib : String → Option String) (e : RawEntry) : Publication :=
  { id := e.citationKey
    type := e.entryType
    title := convertLatexToUnicode ((getField e "title").getD "")
    author := convertLatexToUnicode ((getField e "author").getD "")
    year := (getField e "year").getD ""
    journal := convertLatexToUnicode ((getField e "journal").getD "")
    booktitle := convertLatexToUnicode ((getField e "booktitle").getD "")
    volume := (getField e "volume").getD ""
    number := (getField e "number").getD ""
    pages := (getField e "pages").getD ""
    publisher := convertLatexToUnicode ((getField e "publisher").getD "")
    doi := (getField e "doi").getD ""
    url := (getField e "url").getD ""
    ieeexplore := (getField e "ieeexplore").getD ""
    semanticscholar := (getField e "semanticscholar").getD ""
    arxiv := (getField e "arxiv").getD ""
    abstract := convertLatexToUnicode ((getField e "abstract").getD "")
    openaccesspdf := (getField e "openaccesspdf").getD ""
    research_field := stripBraces ((getField e "research_field").getD "")
    data_type := stripBraces ((getField e "data_type").getD "")
    dvrk_site := stripBraces ((getField e "dvrk_site").getD "")
    bibtexText := (bib e.citationKey).getD ""
    showBibtex := false
    showAbstract := false }

/-- The `filter` of `loadPublications` (src/app.js, line 162): JavaScript
truthiness keeps an entry only when both `title` and `year` are present and
nonempty. -/
def keepEntry (e : RawEntry) : Bool :=
  !((getField e "title").getD "" == "") && !((getField e "year").getD "" == "")

/-- The publications list produced by `loadPublications` for a document text:
parse, filter on title and year, map to records, and `sort` with the
year-descending comparator (JavaScript's `Array.prototype.sort` is stable, as
is `List.insertionSort`, and stable sorts by one total preorder agree).  The
`catch` of `loadPublications` leaves `publications` empty when the parse
fails. -/
def loadPublications (text : String) : List Publication :=
  match parseBibtex text with
  | .error _ => []
  | .ok es =>
    List.insertionSort pubLE
      ((es.filter keepEntry).map (toPublication (extractBibtexEntries text)))

/-- `downloadBibtex` (src/app.js, lines 223-240): the exported file content —
the truthy `bibtexText` values joined by a blank line. -/
def downloadBibtex (pubs : List Publication) : String :=
  jsJoin "\n\n" ((pubs.map (fun p => p.bibtexText)).filter (fun t => !(t == "")))

/-! ### Legacy field-alias resolution -/

/-- Modelled from the spec: the legacy field-alias resolution performed by
`scripts/cleanup_bib.py`, which is not under the sources (only
`scripts/README.md` is): a field historically named in its plural form is
renamed to the current singular canonical name `dvrk_site` when present, with
no change to the value (§4.2). -/
def resolveFieldAlias (n : String) : String :=
  if n = "dvrk_sites" then "dvrk_site" else n

/-- Apply the alias resolution to every field of a record. -/
def normalizeFieldNames (fs : List (String × String)) : List (String × String) :=
  fs.map (fun p => (resolveFieldAlias p.1, p.2))

/-! ### Concrete documents used by the claims -/

/-- A single entry whose title value holds a nested balanced brace group with
a newline before the inner closing brace:
`@misc\x7ba,  title=\x7bX \x7bN ⏎ \x7d M\x7d,  year=\x7b2001\x7d \x7d`. -/
def docNested : String := "@misc\x7ba,\n title=\x7bX \x7bN\n\x7d M\x7d,\n year=\x7b2001\x7d\n\x7d"

/-- What the source's regex actually captures from `docNested`: the span up to
the first newline-then-`\x7d`, inside the nested value. -/
def truncNested : String := "@misc\x7ba,\n title=\x7bX \x7bN\n\x7d"

/-- A well-formed entry followed by an entry whose opening brace is never
closed. -/
def docUnclosed : String := "@misc\x7bgood,\n y=\x7b1\x7d\n\x7d\n@misc\x7bbad,\n t=\x7bunclosed\n"

/-- Two entries in document order `old` (year 2000) then `new` (year 2020). -/
def docTwoYears : String :=
  "@misc\x7bold,\n title=\x7bA\x7d,\n year=\x7b2000\x7d\n\x7d\n\n@misc\x7bnew,\n title=\x7bB\x7d,\n year=\x7b2020\x7d\n\x7d"

/-- An entry with citation key and entry type but no year field. -/
def docKeyNoYear : String := "@misc\x7bk,\n title=\x7bT\x7d\n\x7d"

/-- A would-be entry with no citation key after the type marker: its first
top-level segment is already a field assignment. -/
def docKeyless : String := "@misc\x7btitle=\x7bT\x7d\x7d"

/-! ### Helper lemmas -/

theorem match1_head_ne (c : Char) (r : List Char) (h : c ≠ lbr) : match1 (c :: r) = none := by
  simp [match1, h]

theorem match2_head_ne (c : Char) (r : List Char) (h : c ≠ bs) : match2 (c :: r) = none := by
  simp [match2, h]

theorem match3_head_ne (c : Char) (r : List Char) (h : c ≠ bs) : match3 (c :: r) = none := by
  simp [match3, h]

theorem match4_head_ne (c : Char) (r : List Char) (h : c ≠ lbr) : match4 (c :: r) = none := by
  simp [match4, h]

/-- A replace pass that never finds a match leaves the list unchanged. -/
theorem scanWith_id (f : List Char → Option (List Char × List Char)) :
    ∀ (fuel : Nat) (l : List Char),
      (∀ c ∈ l, ∀ r, f (c :: r) = none) → scanWith f fuel l = l := by
  intro fuel
  induction fuel with
  | zero => intro l _; cases l <;> rfl
  | succ n ih =>
    intro l h
    cases l with
    | nil => rfl
    | cons c rest =>
      have h1 : f (c :: rest) = none := h c (List.mem_cons_self c rest) rest
      simp only [scanWith, h1]
      exact congrArg (c :: ·) (ih rest (fun d hd r => h d (List.mem_cons_of_mem c hd) r))

/-- A string containing neither a backslash nor an opening brace is a fixed
point of the decoder: every one of its four regexes needs one of those two
characters to start a match. -/
theorem convertLatex_id (s : String) (h : ∀ c ∈ s.data, c ≠ bs ∧ c ≠ lbr) :
    convertLatexToUnicode s = s := by
  unfold convertLatexToUnicode
  by_cases hs : s = ""
  · simp [hs]
  · have h1 : runPass match1 s.data = s.data :=
      scanWith_id _ _ _ (fun c hc r => match1_head_ne c r (h c hc).2)
    have h2 : runPass match2 s.data = s.data :=
      scanWith_id _ _ _ (fun c hc r => match2_head_ne c r (h c hc).1)
    have h3 : runPass match3 s.data = s.data :=
      scanWith_id _ _ _ (fun c hc r => match3_head_ne c r (h c hc).1)
    have h4 : runPass match4 s.data = s.data :=
      scanWith_id _ _ _ (fun c hc r => match4_head_ne c r (h c hc).2)
    rw [if_neg hs, h1, h2, h3, h4]

/-- Every token of the splitter stage is nonempty. -/
theorem mem_splitCodes_ne (s t : String) (h : t ∈ splitCodes s) : t ≠ "" := by
  unfold splitCodes at h
  split at h
  · simp at h
  · have := (List.mem_filter.mp h).2
    simpa using this

theorem FIELD_MAP_val_ne (c v : String) (h : FIELD_MAP c = some v) : v ≠ "" := by
  unfold FIELD_MAP at h
  split_ifs at h <;> cases h <;> decide

theorem DATA_TYPE_MAP_val_ne (c v : String) (h : DATA_TYPE_MAP c = some v) : v ≠ "" := by
  unfold DATA_TYPE_MAP at h
  split_ifs at h <;> cases h <;> decide

/-- An entry assembled by the parser always carries a nonempty entry type and
citation key. -/
theorem mkEntry_valid (ty content verb : List Char) (e : RawEntry)
    (h : mkEntry ty content verb = some e) :
    e.entryType ≠ "" ∧ e.citationKey ≠ "" := by
  unfold mkEntry at h
  split at h
  · exact absurd h (by simp)
  · split at h
    · rename_i hcond
      injection h with h
      subst h
      refine ⟨?_, hcond.2.1⟩
      intro hmk
      have h3 : String.mk ty = String.mk [] := hmk
      injection h3 with h4
      exact hcond.1 h4
    · exact absurd h (by simp)

/-- Every entry in a successful parse result has a nonempty entry type and
citation key (entries lacking either never enter the result). -/
theorem parseLoop_valid :
    ∀ (fuel pos : Nat) (l : List Char) (es : List RawEntry),
      parseLoop fuel pos l = .ok es →
      ∀ e ∈ es, e.entryType ≠ "" ∧ e.citationKey ≠ "" := by
  intro fuel
  induction fuel with
  | zero =>
    intro pos l es h e he
    rw [parseLoop.eq_def] at h
    split at h <;> first
    | (injection h with h; subst h; simp at he)
    | omega
  | succ n ih =>
    intro pos l es h e he
    cases l with
    | nil =>
      simp only [parseLoop] at h
      injection h with h; subst h; simp at he
    | cons c rest =>
      simp only [parseLoop] at h
      by_cases hc : c = '@'
      · rw [if_pos hc] at h
        split at h
        · split at h
          · split at h
            · exact absurd h (by simp)
            · split at h
              · rename_i e' hmk
                split at h
                · rename_i es' hrec
                  injection h with h
                  subst h
                  rcases List.mem_cons.mp he with he' | he'
                  · subst he'
                    exact mkEntry_valid _ _ _ _ hmk
                  · exact ih _ _ _ hrec e he'
                · exact absurd h (by simp)
              · exact ih _ _ _ h e he
          · exact ih _ _ _ h e he
        · injection h with h; subst h; simp at he
      · rw [if_neg hc] at h
        exact ih _ _ _ h e he

/-! ### The claims -/

/-- Claim C5: the accent-escape decoder is total and never raises; an escape
pattern whose key is not found in the mapping table is left in the output
exactly as it appeared in the input, and no characters the decoder does not
recognize are dropped: a string with no backslash and no opening brace is
returned verbatim, and unknown-key matches of each replace pass (a brace-wrapped
unknown accent-letter pair, a bare unknown accent-letter pair, a command with an
unmapped argument, and an umlaut escape, whose table keys carry a leading
backslash in this configuration) pass through unchanged. -/
theorem decoder_unknown_escape_passthrough :
    (∀ s : String, (∀ c ∈ s.data, c ≠ bs ∧ c ≠ lbr) → convertLatexToUnicode s = s)
    ∧ convertLatexToUnicode "\x7b\x5c\x27q\x7d" = "\x7b\x5c\x27q\x7d"
    ∧ convertLatexToUnicode "\x5c\x27q" = "\x5c\x27q"
    ∧ convertLatexToUnicode "\x5cc x" = "\x5cc x"
    ∧ convertLatexToUnicode "\x5c\x22u" = "\x5c\x22u" :=
  ⟨fun s h => convertLatex_id s h, by decide, by decide, by decide, by decide⟩

/-- Witness for C5 at a concrete input. -/
theorem decoder_unknown_escape_passthrough_witness :
    convertLatexToUnicode "Robot" = "Robot" :=
  decoder_unknown_escape_passthrough.1 "Robot" (by decide)

/-- Claim C6 (counterexample): the decoder is not idempotent — on `{{a}}` one
application strips only the outer brace pair (the stripping regex forbids a
closing brace in the run but allows an opening one), and a second application
strips again. -/
theorem decoder_not_idempotent_on_nested_braces :
    convertLatexToUnicode (convertLatexToUnicode "\x7b\x7ba\x7d\x7d") ≠
      convertLatexToUnicode "\x7b\x7ba\x7d\x7d" := by decide

/-- Claim C6 (amended): applying the decoder twice yields the same string for
every input whose once-decoded form contains no backslash and no opening brace;
in general a second application can strip further brace pairs or decode
escapes newly exposed by brace stripping. -/
theorem decoder_idempotent_when_decoded_delimiter_free :
    ∀ s : String, (∀ c ∈ (convertLatexToUnicode s).data, c ≠ bs ∧ c ≠ lbr) →
      convertLatexToUnicode (convertLatexToUnicode s) = convertLatexToUnicode s :=
  fun _ h => convertLatex_id _ h

/-- Witness for the amended C6 at a concrete input. -/
theorem decoder_idempotent_when_decoded_delimiter_free_witness :
    convertLatexToUnicode (convertLatexToUnicode "\x7bRobot\x7d") =
      convertLatexToUnicode "\x7bRobot\x7d" :=
  decoder_idempotent_when_decoded_delimiter_free "\x7bRobot\x7d" (by decide)

/-- Claim C7: the category-code-list splitter maps `"AU and TR"` to
`["AU", "TR"]` and the empty string to the empty sequence; tokens are returned
in order of appearance without deduplication, and `parseSites` carries them
through as the acronyms of its results (the field and data-type parsers apply
their display-name resolution to the same token sequence). -/
theorem code_list_splitter :
    splitCodes "AU and TR" = ["AU", "TR"]
    ∧ splitCodes "" = []
    ∧ (∀ (m : String → Option String) (s : String),
        (parseSites m s).map Site.acronym = splitCodes s)
    ∧ splitCodes "AU and TR and AU" = ["AU", "TR", "AU"]
    ∧ parseFields "AU and TR" =
        ["Automation", "Training, skill assessment and gesture recognition"] := by
  refine ⟨by decide, by decide, fun m s => ?_, by decide, by decide⟩
  simp only [parseSites, List.map_map]
  exact List.map_id'' (fun a => rfl) _

/-- Claim C8 (spec-modelled): a record containing the legacy plural site field
is exposed under the canonical singular field name with the value unchanged,
and the value is still an `" and "`-separated code list. -/
theorem legacy_site_field_renamed :
    (∀ (fs : List (String × String)) (v : String),
        ("dvrk_sites", v) ∈ fs → ("dvrk_site", v) ∈ normalizeFieldNames fs)
    ∧ normalizeFieldNames [("dvrk_sites", "JHU and WPI")] = [("dvrk_site", "JHU and WPI")]
    ∧ splitCodes "JHU and WPI" = ["JHU", "WPI"] := by
  refine ⟨fun fs v h => ?_, by decide, by decide⟩
  exact List.mem_map.2 ⟨("dvrk_sites", v), h, by simp [resolveFieldAlias]⟩

/-- Witness for C8 at a concrete record. -/
theorem legacy_site_field_renamed_witness :
    ("dvrk_site", "JHU and WPI") ∈ normalizeFieldNames [("dvrk_sites", "JHU and WPI")] :=
  legacy_site_field_renamed.1 [("dvrk_sites", "JHU and WPI")] "JHU and WPI" (by decide)

/-- Claim C10: no code-list splitter ever returns an empty token — tokens are
trimmed and falsy (empty) tokens are filtered out, in the shared splitter stage
and in each of the research-field, data-type and site parsers; the input
`"AU and  and TR"` yields exactly the two tokens `["AU", "TR"]`. -/
theorem splitters_no_empty_tokens :
    (∀ s : String, (splitCodes s).all (fun t => !(t == "")) = true)
    ∧ (∀ s : String, (parseFields s).all (fun t => !(t == "")) = true)
    ∧ (∀ s : String, (parseDataTypes s).all (fun t => !(t == "")) = true)
    ∧ (∀ (m : String → Option String) (s : String),
        (parseSites m s).all (fun site => !(site.acronym == "")) = true)
    ∧ splitCodes "AU and  and TR" = ["AU", "TR"] := by
  refine ⟨fun s => ?_, fun s => ?_, fun s => ?_, fun m s => ?_, by decide⟩
  · apply List.all_eq_true.2
    intro t ht
    simpa using mem_splitCodes_ne s t ht
  · apply List.all_eq_true.2
    intro u hu
    obtain ⟨c, hc, rfl⟩ := List.mem_map.1 hu
    cases hF : FIELD_MAP c with
    | none => simpa [hF] using mem_splitCodes_ne s c hc
    | some v => simpa [hF] using FIELD_MAP_val_ne c v hF
  · apply List.all_eq_true.2
    intro u hu
    obtain ⟨c, hc, rfl⟩ := List.mem_map.1 hu
    cases hF : DATA_TYPE_MAP c with
    | none => simpa [hF] using mem_splitCodes_ne s c hc
    | some v => simpa [hF] using DATA_TYPE_MAP_val_ne c v hF
  · apply List.all_eq_true.2
    intro site hsite
    obtain ⟨c, hc, rfl⟩ := List.mem_map.1 hsite
    simpa using mem_splitCodes_ne s c hc

/-- Claim C1 (code bug): on an entry whose title value holds a nested balanced
brace group containing a newline before an inner closing brace, the verbatim
extraction of `extractBibtexEntries` does not capture the full source span
through the balancing brace: its regex stops at the first newline followed by a
closing brace, truncating inside the nested value, whereas the balanced parse
of the same document delivers the full span. -/
theorem extract_truncates_nested_value :
    extractBibtexEntries docNested "a" = some truncNested
    ∧ truncNested ≠ docNested
    ∧ ((parseBibtex docNested).toOption.getD []).map (fun e => e.verbatimText) = [docNested] :=
  ⟨by decide, by decide, by decide⟩

/-- Claim C2 (code bug): the round-trip fails on a document with a nested
brace group containing a newline before an inner closing brace — the original
parse yields the full title value, but the verbatim text exported by
`downloadBibtex` is the truncated regex match, which is not independently valid:
re-parsing it fails with `MalformedEntryError` instead of reproducing the
entry. -/
theorem roundtrip_broken_by_truncation :
    ((parseBibtex docNested).toOption.getD []).map
        (fun e => (e.citationKey, getField e "title")) = [("a", some "X \x7bN\n\x7d M")]
    ∧ downloadBibtex (loadPublications docNested) = truncNested
    ∧ parseBibtex truncNested = .error ⟨0⟩ :=
  ⟨by decide, by decide, rfl⟩

/-- Claim C3 (counterexample): on a document whose second entry never closes,
the source's extraction does not fail and does not return an empty result — it
silently returns the well-formed first entry, a partial sequence. -/
theorem extractor_silently_partial_on_unclosed :
    extractBibtexList docUnclosed ≠ [] := by decide

/-- Claim C3 (amended): on a document with an entry whose opening delimiter is
never closed, the balanced parser of the specification fails with a
`MalformedEntryError` at the offset of the unterminated entry and `publications`
stays empty, but the repository's regex extractor raises nothing and silently
returns the matches of the remaining well-formed entries. -/
theorem unclosed_entry_error_vs_silent_extractor :
    parseBibtex docUnclosed = .error ⟨21⟩
    ∧ loadPublications docUnclosed = []
    ∧ extractBibtexList docUnclosed = [("good", "@misc\x7bgood,\n y=\x7b1\x7d\n\x7d")] :=
  ⟨rfl, rfl, by decide⟩

/-- Claim C4 (counterexample): on a document whose entries appear in the order
`old` (year 2000), `new` (year 2020), the parse is in document order but the
publications sequence exposed by `loadPublications` is `["new", "old"]` — it is
sorted, not in document order. -/
theorem loadPublications_reorders_by_year :
    (loadPublications docTwoYears).map (fun p => p.id) = ["new", "old"]
    ∧ ((parseBibtex docTwoYears).toOption.getD []).map (fun e => e.citationKey)
        = ["old", "new"] :=
  ⟨by decide, by decide⟩

/-- Claim C4 (amended): the parser itself returns entries in document order and
applies no sorting, but `loadPublications` then sorts the filtered records with
the stable year-descending comparator: its result is a permutation of the
document-order records and is sorted year-descending (document order survives
only among equal years). -/
theorem loadPublications_sorted_perm :
    ∀ (text : String) (es : List RawEntry), parseBibtex text = .ok es →
      (loadPublications text).Perm
          ((es.filter keepEntry).map (toPublication (extractBibtexEntries text)))
      ∧ (loadPublications text).Sorted pubLE := by
  intro text es h
  unfold loadPublications
  rw [h]
  exact ⟨List.perm_insertionSort _ _, List.sorted_insertionSort _ _⟩

/-- Witness for the amended C4 at a concrete document. -/
theorem loadPublications_sorted_perm_witness :
    (loadPublications "@b\x7bw,\x7d").Perm
        (([(⟨"b", "w", [], "@b\x7bw,\x7d"⟩ : RawEntry)].filter keepEntry).map
          (toPublication (extractBibtexEntries "@b\x7bw,\x7d")))
    ∧ (loadPublications "@b\x7bw,\x7d").Sorted pubLE :=
  loadPublications_sorted_perm "@b\x7bw,\x7d" [⟨"b", "w", [], "@b\x7bw,\x7d"⟩] rfl

/-- Claim C9 (counterexample): exclusion is not governed by citation key and
entry type alone — the entry of `docKeyNoYear` has both a citation key and an
entry type (and a title), yet it is excluded from the publications sequence
because it lacks a year field. -/
theorem entry_with_key_and_type_still_excluded :
    ((parseBibtex docKeyNoYear).toOption.getD []).map (fun e => e.citationKey) = ["k"]
    ∧ loadPublications docKeyNoYear = [] :=
  ⟨by decide, by decide⟩

/-- Claim C9 (amended): a would-be entry lacking a citation key or an entry
type is silently excluded by the parser, which never fails for that reason —
every parsed entry carries a nonempty type and key, and a keyless entry yields
a successful empty parse — and the loader additionally retains exactly the
entries that also have a nonempty title and year. -/
theorem drop_semantics :
    (∀ (text : String) (es : List RawEntry), parseBibtex text = .ok es →
        ∀ e ∈ es, e.entryType ≠ "" ∧ e.citationKey ≠ "")
    ∧ parseBibtex docKeyless = .ok []
    ∧ (∀ (text : String) (es : List RawEntry), parseBibtex text = .ok es →
        (loadPublications text).length = (es.filter keepEntry).length) := by
  refine ⟨fun text es h e he => parseLoop_valid _ _ _ _ h e he, rfl, fun text es h => ?_⟩
  unfold loadPublications
  rw [h]
  rw [(List.perm_insertionSort pubLE _).length_eq, List.length_map]

/-- Witness for the amended C9 at a concrete document and entry. -/
theorem drop_semantics_witness :
    ((⟨"a", "k", [], "@a\x7bk,\x7d"⟩ : RawEntry).entryType ≠ ""
      ∧ (⟨"a", "k", [], "@a\x7bk,\x7d"⟩ : RawEntry).citationKey ≠ "")
    ∧ (loadPublications "@a\x7bk,\x7d").length
        = ([(⟨"a", "k", [], "@a\x7bk,\x7d"⟩ : RawEntry)].filter keepEntry).length :=
  ⟨drop_semantics.1 "@a\x7bk,\x7d" [⟨"a", "k", [], "@a\x7bk,\x7d"⟩] rfl _ (by simp),
   drop_semantics.2.2 "@a\x7bk,\x7d" [⟨"a", "k", [], "@a\x7bk,\x7d"⟩] rfl⟩
